import Mathlib

/-!
Verification of the misinfo video-feed application.

Shallow embedding of the engagement-analytics core of the repository:
the VideoContext metric store (src/src/constants/videos.ts, provider part),
the Feed screen's viewability callback and app-state handler
(src/src/screens/Feed/index.tsx), the legacy feed's survey counter
(src/unnamed/part_001), the Post component's playback handle and source
fallback logic (src/unnamed/part_003), and the API service's URL
processing and catalog fetch (src/src/services/api/index.ts).

Numbers are modelled as Nat (JS numbers here are non-negative integer
timestamps, indices and counts); `Date.now()` is modelled as an explicit
timestamp parameter, one per viewability batch.  Maps keyed by string ids
are modelled as total functions with default values (JS `prev[k] || 0`
reads an absent key as 0).
-/

/-- Pointwise update of a string-keyed map, modelling `obj[k] = v`. -/
def upd {α : Type} (f : String → α) (k : String) (v : α) : String → α :=
  fun x => if x = k then v else f x

/-- State held by the VideoProvider (src/src/constants/videos.ts, lines
151-161): `timeSpent`, `maxScrollDepth`, `videoCount`, and the provider's
own `lastViewedRef` (declared line 158; written only by `resetMetrics`). -/
structure Ctx where
  timeSpent : String → Nat
  maxScrollDepth : Nat
  videoCount : Nat
  ctxStartTime : Option Nat
  ctxContentId : Option String

/-- Initial provider state: empty map, zero counters, cleared ref. -/
def initCtx : Ctx := ⟨fun _ => 0, 0, 0, none, none⟩

/-- updateTimeSpent (videos.ts lines 210-215):
`setTimeSpent(prev => ({...prev, [videoId]: (prev[videoId] || 0) + duration}))`. -/
def updateTimeSpent (videoId : String) (duration : Nat) (c : Ctx) : Ctx :=
  { c with timeSpent := upd c.timeSpent videoId (c.timeSpent videoId + duration) }

/-- updateScrollDepth (videos.ts lines 221-223):
`setMaxScrollDepth(prev => Math.max(prev, depth))`. -/
def updateScrollDepth (depth : Nat) (c : Ctx) : Ctx :=
  { c with maxScrollDepth := max c.maxScrollDepth depth }

/-- incrementVideoCount (videos.ts lines 228-230): `setVideoCount(prev => prev + 1)`. -/
def incrementVideoCount (c : Ctx) : Ctx :=
  { c with videoCount := c.videoCount + 1 }

/-- resetMetrics (videos.ts lines 246-251): clears the three metrics and the
provider's own `lastViewedRef` (which no other provider code reads). -/
def resetMetrics (c : Ctx) : Ctx :=
  { c with timeSpent := fun _ => 0, maxScrollDepth := 0, videoCount := 0,
           ctxStartTime := none, ctxContentId := none }

/-- Application states observed by the AppState listener
(`active`, `inactive`, `background`). -/
inductive AppSt
  | active
  | inactive
  | background
deriving DecidableEq

/-- Commands issued to a per-item playback handle (VideoRef, src/src/types/index.ts). -/
inductive Cmd
  | play (id : String)
  | pause (id : String)
deriving DecidableEq

/-- One entry of the `changed` array delivered to onViewableItemsChanged:
item key (id.toString()), list index, and viewability flag. -/
structure ViewElem where
  id : String
  index : Nat
  isViewable : Bool

/-- State of one mounted Feed screen (src/src/screens/Feed/index.tsx):
the provider context, the screen's `lastViewedRef` (lines 51-57, fields
`startTime` and `contentId`), the `mediaRefs` registry (modelled as the set
of ids with a non-null handle plus each handle's play flag), `appStateRef`,
and the `showSurvey` flag. -/
structure FeedSt where
  ctx : Ctx
  startTime : Option Nat
  contentId : Option String
  mounted : String → Bool
  playing : String → Bool
  appStateRef : AppSt
  showSurvey : Bool

/-- Guarded playback command, modelling
`if (mediaRefs.current[videoId]) { mediaRefs.current[videoId]?.play() }`
(and the same shape for pause): a handle that is absent or null is left
untouched. -/
def setPlaying (st : FeedSt) (id : String) (b : Bool) : FeedSt :=
  if st.mounted id then { st with playing := upd st.playing id b } else st

/-- Processing of one element of the `changed` array by the Feed screen's
onViewableItemsChangedCallback (Feed/index.tsx lines 72-114).  Viewable:
play the item's handle, set `lastViewedRef` to the current time and item,
then `updateScrollDepth(element.index + 1)` and `incrementVideoCount()`.
Non-viewable: pause the handle; then, if `lastViewedRef.current.startTime`
is truthy and its `contentId` equals this item, credit
`Date.now() - startTime` via updateTimeSpent and clear the ref.
`Date.now()` is modelled as the batch timestamp `now`; the calls
startVideoView/endVideoView touch only the separate analytics module and
carry no state modelled here. -/
def viewableElementStep (now : Nat) (st : FeedSt) (e : ViewElem) : FeedSt :=
  if e.isViewable then
    let st1 := setPlaying st e.id true
    let st2 := { st1 with startTime := some now, contentId := some e.id }
    { st2 with ctx := incrementVideoCount (updateScrollDepth (e.index + 1) st2.ctx) }
  else
    let st1 := setPlaying st e.id false
    match st.startTime, st.contentId with
    | some t0, some cid =>
      if t0 ≠ 0 ∧ cid = e.id then
        { st1 with ctx := updateTimeSpent e.id (now - t0) st1.ctx,
                   startTime := none, contentId := none }
      else st1
    | _, _ => st1

/-- onViewableItemsChangedCallback (Feed/index.tsx lines 63-115):
`changed.forEach(element => ...)` at batch time `now`. -/
def onViewableItemsChanged (now : Nat) (st : FeedSt) (changed : List ViewElem) : FeedSt :=
  changed.foldl (viewableElementStep now) st

/-- Run a sequence of viewability batches, each with its timestamp. -/
def runTrace (tr : List (Nat × List ViewElem)) (st : FeedSt) : FeedSt :=
  tr.foldl (fun s b => onViewableItemsChanged b.1 s b.2) st

/-- A freshly mounted Feed screen over mounted-handle set `m`:
`lastViewedRef` starts as `{startTime: null, contentId: null}`, nothing
plays, the app is active, no survey is shown. -/
def initFeed (m : String → Bool) : FeedSt :=
  ⟨initCtx, none, none, m, fun _ => false, AppSt.active, false⟩

/-- Remount of the Feed screen: the mount effect (Feed/index.tsx lines
154-169) calls `resetMetrics()`, and the new Feed instance's
`lastViewedRef` starts at `{startTime: null, contentId: null}` (lines
51-57).  Handle registration is per-item and not part of the metrics
claims, so `mounted`/`playing` are carried over unchanged. -/
def mountFeed (st : FeedSt) : FeedSt :=
  { st with ctx := resetMetrics st.ctx, startTime := none, contentId := none }

/-- View-session ledger: at most one open session `(contentId,
startTimestamp)`; a closed session is recorded as `(contentId, start,
stop)`. -/
structure SessionLog where
  openS : Option (String × Nat)
  closed : List (String × Nat × Nat)

/-- Session transition realizing the closing discipline the Feed
callback's `lastViewedRef` implements: an item reported viewable becomes
the current session, displacing — without closing or crediting — any
session still open; an item reported non-viewable closes the open session
exactly when that session is its own, recording its duration once.  This
ledger underlies the amended C1.  The specification's own close-with-credit
discipline is specSessionStep below; the two differ exactly on displaced
sessions, which is the content of the C1 counterexample. -/
def codeSessionStep (now : Nat) (g : SessionLog) (e : ViewElem) : SessionLog :=
  if e.isViewable then { g with openS := some (e.id, now) }
  else
    match g.openS with
    | some (cid, t0) =>
      if cid = e.id then ⟨none, g.closed ++ [(cid, t0, now)]⟩ else g
    | none => g

/-- Code-discipline ledger over one batch. -/
def codeSessionBatch (now : Nat) (g : SessionLog) (es : List ViewElem) : SessionLog :=
  es.foldl (codeSessionStep now) g

/-- Code-discipline ledger over a timed trace of batches. -/
def codeSessionTrace (tr : List (Nat × List ViewElem)) (g : SessionLog) : SessionLog :=
  tr.foldl (fun g1 b => codeSessionBatch b.1 g1 b.2) g

/-- Empty session log: no open session, nothing closed. -/
def initLog : SessionLog := ⟨none, []⟩

/-- Session transition following the spec's words (close-before-open): an
item reported viewable first closes — crediting its duration — any open
session of a different item, then opens the new session; a repeated
viewable report of the current item restarts its start timestamp; an item
reported non-viewable closes the open session exactly when it is its own. -/
def specSessionStep (now : Nat) (g : SessionLog) (e : ViewElem) : SessionLog :=
  if e.isViewable then
    match g.openS with
    | some (cid, t0) =>
      if cid = e.id then { g with openS := some (e.id, now) }
      else ⟨some (e.id, now), g.closed ++ [(cid, t0, now)]⟩
    | none => { g with openS := some (e.id, now) }
  else
    match g.openS with
    | some (cid, t0) =>
      if cid = e.id then ⟨none, g.closed ++ [(cid, t0, now)]⟩ else g
    | none => g

/-- Spec-discipline ledger over one batch. -/
def specSessionBatch (now : Nat) (g : SessionLog) (es : List ViewElem) : SessionLog :=
  es.foldl (specSessionStep now) g

/-- Spec-discipline ledger over a timed trace of batches. -/
def specSessionTrace (tr : List (Nat × List ViewElem)) (g : SessionLog) : SessionLog :=
  tr.foldl (fun g1 b => specSessionBatch b.1 g1 b.2) g

/-- Sum of the durations of the closed sessions recorded for one item. -/
def closedDur (id : String) : List (String × Nat × Nat) → Nat
  | [] => 0
  | s :: rest => (if s.1 = id then s.2.2 - s.2.1 else 0) + closedDur id rest

/-- The session the Feed screen's `lastViewedRef` currently encodes:
present exactly when both fields are non-null. -/
def sessionOf (st : FeedSt) : Option (String × Nat) :=
  match st.contentId, st.startTime with
  | some c, some t => some (c, t)
  | _, _ => none

/-- handleAppStateChange (Feed/index.tsx lines 127-149).  On `inactive` or
`background`: show the survey, and pause the handle of
`lastViewedRef.current.contentId` when that id is truthy and its handle is
registered.  On `active`, and only when the previously observed
`appStateRef.current` was not already `active`: play that same handle under
the same guard.  Finally `appStateRef.current = nextAppState`.  The list of
issued handle commands is returned alongside the new state. -/
def handleAppStateChange (nextAppState : AppSt) (st : FeedSt) : FeedSt × List Cmd :=
  let p1 : FeedSt × List Cmd :=
    if nextAppState = AppSt.inactive ∨ nextAppState = AppSt.background then
      let stA := { st with showSurvey := true }
      match stA.contentId with
      | some cid =>
        if cid ≠ "" ∧ stA.mounted cid then
          ({ stA with playing := upd stA.playing cid false }, [Cmd.pause cid])
        else (stA, [])
      | none => (stA, [])
    else (st, [])
  let p2 : FeedSt × List Cmd :=
    if nextAppState = AppSt.active ∧ p1.1.appStateRef ≠ AppSt.active then
      match p1.1.contentId with
      | some cid =>
        if cid ≠ "" ∧ p1.1.mounted cid then
          ({ p1.1 with playing := upd p1.1.playing cid true }, [Cmd.play cid])
        else (p1.1, [])
      | none => (p1.1, [])
    else (p1.1, [])
  ({ p2.1 with appStateRef := nextAppState }, p1.2 ++ p2.2)

/-- Run a sequence of app-state change events through handleAppStateChange,
collecting every issued handle command in order. -/
def runApp (evs : List AppSt) (st : FeedSt) : FeedSt × List Cmd :=
  match evs with
  | [] => (st, [])
  | e :: es =>
    let p := handleAppStateChange e st
    let q := runApp es p.1
    (q.1, p.2 ++ q.2)

/-- Number of play commands addressed to item `c` in a command log. -/
def countPlay (c : String) : List Cmd → Nat
  | [] => 0
  | Cmd.play x :: rest => (if x = c then 1 else 0) + countPlay c rest
  | Cmd.pause _ :: rest => countPlay c rest

/-- Number of pause commands addressed to item `c` in a command log. -/
def countPause (c : String) : List Cmd → Nat
  | [] => 0
  | Cmd.pause x :: rest => (if x = c then 1 else 0) + countPause c rest
  | Cmd.play _ :: rest => countPause c rest

/-- Specification-level count of foreground resumptions in an event
sequence: events equal to `active` whose previously observed state was not
already `active`. -/
def resumePoints (prev : AppSt) : List AppSt → Nat
  | [] => 0
  | e :: es => (if e = AppSt.active ∧ prev ≠ AppSt.active then 1 else 0) + resumePoints e es

/-- Specification-level count of backgrounding events (`inactive` or
`background`) in an event sequence. -/
def pausePoints : List AppSt → Nat
  | [] => 0
  | e :: es =>
    (if e = AppSt.inactive ∨ e = AppSt.background then 1 else 0) + pausePoints es

/-- Whether an event is a backgrounding event. -/
def isBackgrounding (e : AppSt) : Bool :=
  e = AppSt.inactive || e = AppSt.background

/-- The functional updater passed to setVideoCount by the legacy feed
(src/unnamed/part_001 lines 109-115): increments the count and calls
`setShowSurvey(true)` exactly when the new count is a multiple of 5.  The
boolean reports whether the survey trigger fired on this activation. -/
def videoCountStep (prevCount : Nat) : Nat × Bool :=
  let newCount := prevCount + 1
  (newCount, newCount % 5 == 0)

/-- Run `n` activations through videoCountStep starting from count 0,
recording the list of counts at which the survey trigger fired. -/
def runActivations : Nat → Nat × List Nat
  | 0 => (0, [])
  | n + 1 =>
    let r := runActivations n
    let s := videoCountStep r.1
    (s.1, r.2 ++ if s.2 then [s.1] else [])

/-- Number of occurrences of the count `c` in a list of fired counts. -/
def countFires (c : Nat) : List Nat → Nat
  | [] => 0
  | x :: rest => (if x = c then 1 else 0) + countFires c rest

/-- Source attribution of a post (src/src/types/index.ts, PostSource). -/
structure PostSrc where
  name : String
  imageuri : Option String
deriving DecidableEq

/-- A video post record (src/src/types/index.ts, Post): id, uri, the
presentation fields, and the streaming-related optional fields. -/
structure PostR where
  id : Nat
  uri : String
  caption : Option String := none
  source : Option PostSrc := none
  likes : Option Nat := none
  facts : List String := []
  tags : List String := []
  originalUri : Option String := none
  streamingUrl : Option String := none
  fallbackUrl : Option String := none
  isStreaming : Bool := false
deriving DecidableEq

/-- Truthiness of an optional string field (JS: undefined, null and the
empty string are falsy). -/
def optStrTruthy : Option String → Bool
  | none => false
  | some s => s != ""

/-- The bundled static catalog VIDEOS (src/src/constants/videos.ts lines 11-96). -/
def VIDEOS : List PostR :=
  [ { id := 1,
      uri := "https://drive.google.com/uc?export=download&id=1567uKxxJx9J5uvf0BbLU-Qipe0YZZl39",
      caption := some "A short caption similar to explanatory headline.",
      source := some ⟨"USA Today", some "https://i.imgur.com/P8OOZMm.png"⟩,
      likes := some 3800, facts := [], tags := [] },
    { id := 2,
      uri := "https://drive.google.com/uc?export=download&id=17QAoPwiSeQjm-v8uO3gp7BymemHCzh_T",
      caption := some "A short caption similar to explanatory headline.",
      source := some ⟨"USA Today", some "https://i.imgur.com/P8OOZMm.png"⟩,
      likes := some 2500, facts := [], tags := [] },
    { id := 3,
      uri := "https://drive.google.com/uc?export=download&id=19YlJ9AcQJxlocoe3puA5aHriaKtvufB8",
      caption := some "A short caption similar to explanatory headline.",
      source := some ⟨"USA Today", some "https://i.imgur.com/P8OOZMm.png"⟩,
      likes := some 1900, facts := [], tags := [] },
    { id := 4,
      uri := "https://drive.google.com/uc?export=download&id=1ZiEPJPjTlYUnOabU7UjnoFtrbT6JNKaJ",
      caption := some "A short caption similar to explanatory headline.",
      source := some ⟨"USA Today", some "https://i.imgur.com/P8OOZMm.png"⟩,
      likes := some 4200, facts := [], tags := [] },
    { id := 5,
      uri := "https://drive.google.com/uc?export=download&id=1h2Ns1ZKui5XPB8c1sUxHMPKB7ElVB5sW",
      caption := some "A short caption similar to explanatory headline.",
      source := some ⟨"USA Today", some "https://i.imgur.com/P8OOZMm.png"⟩,
      likes := some 3100, facts := [], tags := [] },
    { id := 6,
      uri := "https://drive.google.com/uc?export=download&id=1jrZaKS8ZkycMCCW9wdcLQuJTuh4p8WS0",
      caption := some "A short caption similar to explanatory headline.",
      source := some ⟨"USA Today", some "https://i.imgur.com/P8OOZMm.png"⟩,
      likes := some 2800, facts := [], tags := [] },
    { id := 7,
      uri := "https://drive.google.com/uc?export=download&id=1pqHpIZuIR3rCDhdYJkDB6BOYEcwV7ejG",
      caption := some "A short caption similar to explanatory headline.",
      source := some ⟨"USA Today", some "https://i.imgur.com/P8OOZMm.png"⟩,
      likes := some 3500, facts := [], tags := [] } ]

/-- API base URL (src/src/services/api/index.ts line 9). -/
def API_BASE_URL : String := "http://192.168.1.10:3000/api"

/-- The streaming endpoint checked for a video id
(`API_BASE_URL/stream/video/videoId`, api/index.ts line 50). -/
def streamEndpoint (videoId : String) : String :=
  API_BASE_URL ++ "/stream/video/" ++ videoId

/-- checkStreamingAvailability (api/index.ts lines 48-59): a HEAD probe of
the streaming endpoint; returns the endpoint when the probe answers ok,
null otherwise (network errors are caught and become null).  The probe
outcome is modelled by the oracle `ok`. -/
def checkStreamingAvailability (ok : String → Bool) (videoId : String) : Option String :=
  if ok videoId then some (streamEndpoint videoId) else none

/-- getBestVideoUrl (api/index.ts lines 66-96): an existing truthy
`streamingUrl` wins; else, when the id is truthy, a successful probe of the
id's streaming endpoint wins; else, when the uri is truthy and not an http
URL, a successful probe of the uri wins; else `post.fallbackUrl || post.uri`. -/
def getBestVideoUrl (ok : String → Bool) (post : PostR) : String :=
  if optStrTruthy post.streamingUrl then post.streamingUrl.getD ""
  else
    let r1 := if post.id ≠ 0 then checkStreamingAvailability ok (toString post.id) else none
    match r1 with
    | some u => u
    | none =>
      let r2 :=
        if post.uri != "" && !(post.uri.startsWith "http") then
          checkStreamingAvailability ok post.uri
        else none
      match r2 with
      | some u => u
      | none => if optStrTruthy post.fallbackUrl then post.fallbackUrl.getD "" else post.uri

/-- Whether `pat` occurs inside `s`, modelling JS `s.includes(pat)`. -/
def containsSub (s pat : String) : Bool :=
  (s.splitOn pat).length != 1

/-- Per-element processing inside fetchVideos (videos.ts lines 172-188):
`{...video, uri: bestUrl, originalUri: video.uri, isStreaming:
bestUrl.includes('/stream/')}`.  The surrounding try/catch returns the
original video only when getBestVideoUrl throws, which the embedded
function never does. -/
def processFetchedVideo (ok : String → Bool) (video : PostR) : PostR :=
  let bestUrl := getBestVideoUrl ok video
  { video with uri := bestUrl, originalUri := some video.uri,
               isStreaming := containsSub bestUrl "/stream/" }

/-- The video list fetchVideos (videos.ts lines 163-203) leaves in the
provider: on a fetch error the bundled VIDEOS; on an empty (or null,
which the catch also covers) response the bundled VIDEOS; otherwise the
fetched list processed per element. -/
def fetchVideosResult (ok : String → Bool) (outcome : Except Unit (List PostR)) : List PostR :=
  match outcome with
  | Except.error _ => VIDEOS
  | Except.ok apiVideos =>
    if apiVideos.length > 0 then apiVideos.map (processFetchedVideo ok) else VIDEOS

/-- Per-item source-resolution state of the Post component
(src/unnamed/part_003): the `videoSource` uri (line 352), the `hasError`
flag (line 353) and the `isLoading` flag (line 105). -/
structure SState where
  videoSourceUri : String
  hasError : Bool
  isLoading : Bool
deriving DecidableEq

/-- State when a Post first renders item `d`: `videoSource = {uri: data.uri}`,
`hasError = false`, `isLoading = true`. -/
def initSState (d : PostR) : SState :=
  ⟨d.uri, false, true⟩

/-- handleVideoError (src/unnamed/part_003 lines 378-398).  First branch:
streaming item with a truthy fallbackUrl and no prior error switches the
source to the fallback and marks `hasError`.  Second branch: a truthy
originalUri different from the current source, with no prior error,
switches to the original.  Otherwise all options are exhausted:
`isLoading = false`, `hasError = true`, source unchanged. -/
def handleVideoError (d : PostR) (st : SState) : SState :=
  if d.isStreaming && optStrTruthy d.fallbackUrl && !st.hasError then
    { videoSourceUri := d.fallbackUrl.getD "", hasError := true, isLoading := true }
  else if optStrTruthy d.originalUri && (d.originalUri.getD "" != st.videoSourceUri)
          && !st.hasError then
    { videoSourceUri := d.originalUri.getD "", hasError := true, isLoading := true }
  else
    { st with isLoading := false, hasError := true }

/-- Sources attempted after the initial one when every load fails: each
handleVideoError application that leaves `isLoading` true starts a load of
the new source; one that clears it is the terminal exhausted state.  Fuel
bounds the recursion; 4 exceeds the number of tiers. -/
def failAttempts (d : PostR) : Nat → SState → List String
  | 0, _ => []
  | fuel + 1, st =>
    let st2 := handleVideoError d st
    if st2.isLoading then st2.videoSourceUri :: failAttempts d fuel st2 else []

/-- The full list of sources the Post component attempts to load for item
`d` when every attempt fails, starting from the initial source. -/
def attemptList (d : PostR) : List String :=
  d.uri :: failAttempts d 4 (initSState d)

/-- State of the underlying expo-av player instance behind `videoRef`. -/
structure PlayerSt where
  loaded : Bool
  shouldPlay : Bool
deriving DecidableEq

/-- State of one Post's imperative handle (src/unnamed/part_003):
`videoRef.current` (null once the item's unmount has cleared it) and the
component's `isLoading` flag. -/
structure HandleSt where
  ref : Option PlayerSt
  isLoading : Bool
deriving DecidableEq

/-- The player's `setStatusAsync({shouldPlay})`: sets the flag, or rejects
(modelled by `rej`, e.g. when the item has begun unmounting). -/
def setStatusAsync (rej : Bool) (sp : Bool) (p : PlayerSt) : Except String PlayerSt :=
  if rej then Except.error "player rejected" else Except.ok { p with shouldPlay := sp }

/-- The player's `unloadAsync()`: releases the media, or rejects. -/
def unloadAsync (rej : Bool) (p : PlayerSt) : Except String PlayerSt :=
  if rej then Except.error "player rejected"
  else Except.ok { p with loaded := false, shouldPlay := false }

/-- The handle's play() (part_003 lines 321-329):
`if (!videoRef.current) return;` then
`try { await videoRef.current.setStatusAsync({shouldPlay: true}) } catch (e)
{ console.error(...) }` — a rejection is logged and swallowed, so the call
always resolves. -/
def playHandle (rej : Bool) (h : HandleSt) : HandleSt × Except String Unit :=
  match h.ref with
  | none => (h, Except.ok ())
  | some p =>
    match setStatusAsync rej true p with
    | Except.ok p2 => ({ h with ref := some p2 }, Except.ok ())
    | Except.error _ => (h, Except.ok ())

/-- The handle's pause() (part_003 lines 330-338), same guard and catch with
`{shouldPlay: false}`. -/
def pauseHandle (rej : Bool) (h : HandleSt) : HandleSt × Except String Unit :=
  match h.ref with
  | none => (h, Except.ok ())
  | some p =>
    match setStatusAsync rej false p with
    | Except.ok p2 => ({ h with ref := some p2 }, Except.ok ())
    | Except.error _ => (h, Except.ok ())

/-- The handle's unload() (part_003 lines 339-348): guard, then
`await videoRef.current.unloadAsync(); setIsLoading(true)` inside the same
catch-and-log pattern. -/
def unloadHandle (rej : Bool) (h : HandleSt) : HandleSt × Except String Unit :=
  match h.ref with
  | none => (h, Except.ok ())
  | some p =>
    match unloadAsync rej p with
    | Except.ok p2 => ({ ref := some p2, isLoading := true }, Except.ok ())
    | Except.error _ => (h, Except.ok ())

/-- JS values appearing in the fields processVideoUrls touches: strings,
null, numbers, booleans; an absent field reads as undefined (`none` at the
lookup level). -/
inductive Val
  | str (s : String)
  | null
  | num (n : Int)
  | bool (b : Bool)
deriving DecidableEq

/-- Truthiness of a field lookup: undefined, null, the empty string, 0 and
false are falsy. -/
def truthyOpt : Option Val → Bool
  | none => false
  | some (Val.str s) => s != ""
  | some Val.null => false
  | some (Val.num n) => n != 0
  | some (Val.bool b) => b

/-- A JS object as an ordered field list. -/
abbrev Obj := List (String × Val)

/-- Field lookup; `none` is an absent field (undefined). -/
def objLookup : Obj → String → Option Val
  | [], _ => none
  | (k0, v0) :: rest, k => if k0 = k then some v0 else objLookup rest k

/-- Field assignment `o[k] = v`: replaces the field in place or appends it. -/
def objSet : Obj → String → Val → Obj
  | [], k, v => [(k, v)]
  | (k0, v0) :: rest, k, v =>
    if k0 = k then (k, v) :: rest else (k0, v0) :: objSet rest k v

/-- JS `a || b` over field lookups: the left value when truthy, else `b`. -/
def jsOr (a : Option Val) (b : Val) : Val :=
  if truthyOpt a then a.getD Val.null else b

/-- A post object's uri-shaped field is well formed when it is absent,
null, or a string — true of every object the JSON API hands to
processVideoUrls; on a non-string truthy value JS's `.startsWith` call
would throw instead. -/
def uriFieldWF (o : Option Val) : Prop :=
  o = none ∨ o = some Val.null ∨ ∃ s, o = some (Val.str s)

/-- The pure field transformation performed by processVideoUrls
(api/index.ts lines 16-41) on the copy `{...post}`: rewrite a relative
`/api/stream/` uri to a full URL and record streaming/fallback fields,
else record the external uri as fallback; rewrite a relative streaming
thumbnail likewise.  `API_BASE_URL.replace('/api', '')` replaces the one
occurrence of `/api` in the base URL. -/
def processObjFields (obj : Obj) : Obj :=
  let serverBase := API_BASE_URL.replace "/api" ""
  let processed := obj
  let processed :=
    match objLookup obj "uri" with
    | some (Val.str s) =>
      if s != "" && s.startsWith "/api/stream/" then
        let newUri := serverBase ++ s
        let p1 := objSet processed "uri" (Val.str newUri)
        let p2 := objSet p1 "streamingUrl" (Val.str newUri)
        objSet p2 "fallbackUrl"
          (jsOr (objLookup obj "fallback_url")
            (jsOr (objLookup obj "original_url") Val.null))
      else if s != "" then
        let p1 := objSet processed "streamingUrl" Val.null
        let p2 := objSet p1 "fallbackUrl" (Val.str s)
        objSet p2 "uri" (Val.str s)
      else processed
    | _ => processed
  match objLookup obj "thumbnail_url" with
  | some (Val.str t) =>
    if t != "" && t.startsWith "/api/stream/" then
      objSet processed "thumbnail_url" (Val.str (serverBase ++ t))
    else processed
  | _ => processed

/-- Heap of JS objects; a reference is an index into it. -/
abbrev Store := List Obj

/-- Dereference an object. -/
def storeGet (st : Store) (r : Nat) : Option Obj :=
  List.get? st r

/-- processVideoUrls (api/index.ts lines 16-41) over the object heap:
`if (!post) return post;` then `const processedPost = {...post}` allocates
a fresh object, every subsequent write lands on the copy, and the copy is
returned.  A dangling reference is returned unchanged (unreachable from
the call sites). -/
def processVideoUrls (st : Store) (post : Option Nat) : Store × Option Nat :=
  match post with
  | none => (st, none)
  | some r =>
    match storeGet st r with
    | none => (st, some r)
    | some obj => (st ++ [processObjFields obj], some st.length)

/-- One call into the VideoProvider's mutation interface. -/
inductive CtxOp
  | time (videoId : String) (duration : Nat)
  | scroll (depth : Nat)
  | incr
  | reset
deriving DecidableEq

/-- Apply one provider call (videos.ts lines 210-251). -/
def applyCtxOp (c : Ctx) : CtxOp → Ctx
  | CtxOp.time v d => updateTimeSpent v d c
  | CtxOp.scroll d => updateScrollDepth d c
  | CtxOp.incr => incrementVideoCount c
  | CtxOp.reset => resetMetrics c

/-- Apply a sequence of provider calls in order. -/
def applyCtxOps (ops : List CtxOp) (c : Ctx) : Ctx :=
  ops.foldl applyCtxOp c




/-- Example item for the tier-fallback analysis: streaming uri A,
fallback B, original C. -/
def dC3 : PostR :=
  { id := 1, uri := "A", isStreaming := true,
    fallbackUrl := some "B", originalUri := some "C" }

/-! ## Helper lemmas -/

theorem setPlaying_ctx (st : FeedSt) (id : String) (b : Bool) :
    (setPlaying st id b).ctx = st.ctx := by
  unfold setPlaying; split <;> rfl

theorem setPlaying_startTime (st : FeedSt) (id : String) (b : Bool) :
    (setPlaying st id b).startTime = st.startTime := by
  unfold setPlaying; split <;> rfl

theorem setPlaying_contentId (st : FeedSt) (id : String) (b : Bool) :
    (setPlaying st id b).contentId = st.contentId := by
  unfold setPlaying; split <;> rfl

theorem setPlaying_mounted (st : FeedSt) (id : String) (b : Bool) :
    (setPlaying st id b).mounted = st.mounted := by
  unfold setPlaying; split <;> rfl

theorem setPlaying_playing (st : FeedSt) (id : String) (b : Bool) (i : String) :
    (setPlaying st id b).playing i =
      if i = id ∧ st.mounted id = true then b else st.playing i := by
  unfold setPlaying upd
  by_cases hm : st.mounted id <;> by_cases hi : i = id <;> simp [hm, hi]

theorem updateScrollDepth_timeSpent (d : Nat) (c : Ctx) :
    (updateScrollDepth d c).timeSpent = c.timeSpent := rfl

theorem incrementVideoCount_timeSpent (c : Ctx) :
    (incrementVideoCount c).timeSpent = c.timeSpent := rfl

theorem updateTimeSpent_timeSpent (v : String) (d : Nat) (c : Ctx) (i : String) :
    (updateTimeSpent v d c).timeSpent i =
      if i = v then c.timeSpent v + d else c.timeSpent i := by
  unfold updateTimeSpent upd; by_cases hi : i = v <;> simp [hi]

theorem closedDur_append (id : String) (l1 l2 : List (String × Nat × Nat)) :
    closedDur id (l1 ++ l2) = closedDur id l1 + closedDur id l2 := by
  induction l1 with
  | nil => simp [closedDur]
  | cons s rest ih => simp [closedDur, ih]; omega

/-- Invariant coupling the Feed screen's state with the specification-level
session log: the encoded session agrees, any open session started at a
positive (hence truthy) timestamp, and the accumulated time of every item
is the total duration of its closed sessions. -/
def SessInv (st : FeedSt) (g : SessionLog) : Prop :=
  sessionOf st = g.openS ∧
  (∀ c t, g.openS = some (c, t) → 0 < t) ∧
  (∀ id, st.ctx.timeSpent id = closedDur id g.closed)

theorem sessionOf_none_start (st : FeedSt) (h : st.startTime = none) :
    sessionOf st = none := by
  unfold sessionOf
  rw [h]
  rcases st.contentId with _ | c <;> rfl

theorem sessionOf_none_content (st : FeedSt) (h : st.contentId = none) :
    sessionOf st = none := by
  unfold sessionOf
  rw [h]

theorem sessionOf_some (st : FeedSt) (t0 : Nat) (cid : String)
    (hst : st.startTime = some t0) (hcid : st.contentId = some cid) :
    sessionOf st = some (cid, t0) := by
  unfold sessionOf
  rw [hst, hcid]

theorem sessionOf_setPlaying (st : FeedSt) (id : String) (b : Bool) :
    sessionOf (setPlaying st id b) = sessionOf st := by
  unfold sessionOf
  rw [setPlaying_contentId, setPlaying_startTime]

theorem sessInv_step (now : Nat) (st : FeedSt) (g : SessionLog) (e : ViewElem)
    (hnow : 0 < now) (h : SessInv st g) :
    SessInv (viewableElementStep now st e) (codeSessionStep now g e) := by
  obtain ⟨hsess, hpos, hts⟩ := h
  by_cases hv : e.isViewable = true
  · -- the element became viewable: a fresh session opens for it
    refine ⟨?_, ?_, ?_⟩
    · simp only [viewableElementStep, codeSessionStep, hv, if_true]
      rfl
    · intro c t heq
      simp only [codeSessionStep, hv, if_true] at heq
      cases heq
      exact hnow
    · intro id
      simp only [viewableElementStep, codeSessionStep, hv, if_true]
      show (incrementVideoCount (updateScrollDepth (e.index + 1)
        (setPlaying st e.id true).ctx)).timeSpent id = closedDur id g.closed
      rw [incrementVideoCount_timeSpent, updateScrollDepth_timeSpent, setPlaying_ctx]
      exact hts id
  · -- the element became non-viewable
    have hv2 : e.isViewable = false := by
      cases hval : e.isViewable
      · rfl
      · exact absurd hval hv
    rcases hst : st.startTime with _ | t0
    · -- no open start time: the ref guard fails and the ghost has no session
      have hnone : sessionOf st = none := sessionOf_none_start st hst
      have hopen : g.openS = none := by rw [← hsess, hnone]
      have hcode : viewableElementStep now st e = setPlaying st e.id false := by
        unfold viewableElementStep
        rw [hv2, hst]
        simp
      have hghost : codeSessionStep now g e = g := by
        unfold codeSessionStep
        rw [hv2, hopen]
        simp
      rw [hcode, hghost]
      exact ⟨by rw [sessionOf_setPlaying, hnone, hopen], hpos,
        fun id => by rw [setPlaying_ctx]; exact hts id⟩
    · rcases hcid : st.contentId with _ | cid
      · -- start time set but no content id: guard fails, ghost has no session
        have hnone : sessionOf st = none := sessionOf_none_content st hcid
        have hopen : g.openS = none := by rw [← hsess, hnone]
        have hcode : viewableElementStep now st e = setPlaying st e.id false := by
          unfold viewableElementStep
          rw [hv2, hst, hcid]
          simp
        have hghost : codeSessionStep now g e = g := by
          unfold codeSessionStep
          rw [hv2, hopen]
          simp
        rw [hcode, hghost]
        exact ⟨by rw [sessionOf_setPlaying, hnone, hopen], hpos,
          fun id => by rw [setPlaying_ctx]; exact hts id⟩
      · -- an open ref (cid, t0)
        have hsome : sessionOf st = some (cid, t0) := sessionOf_some st t0 cid hst hcid
        have hopen : g.openS = some (cid, t0) := by rw [← hsess, hsome]
        have ht0 : 0 < t0 := hpos cid t0 hopen
        by_cases hg : t0 ≠ 0 ∧ cid = e.id
        · -- the open session is this element's: it closes and is credited once
          have hcode : viewableElementStep now st e =
              { setPlaying st e.id false with
                ctx := updateTimeSpent e.id (now - t0) (setPlaying st e.id false).ctx,
                startTime := none, contentId := none } := by
            unfold viewableElementStep
            rw [hv2, hst, hcid]
            simp [hg]
          have hghost : codeSessionStep now g e =
              ⟨none, g.closed ++ [(cid, t0, now)]⟩ := by
            unfold codeSessionStep
            rw [hv2, hopen]
            simp [hg.2]
          rw [hcode, hghost]
          refine ⟨rfl, fun c t heq => Option.noConfusion heq, fun id => ?_⟩
          show (updateTimeSpent e.id (now - t0) (setPlaying st e.id false).ctx).timeSpent id
            = closedDur id (g.closed ++ [(cid, t0, now)])
          rw [updateTimeSpent_timeSpent, setPlaying_ctx, closedDur_append]
          by_cases hid : id = e.id
          · rw [if_pos hid, hid, hts e.id]
            simp [closedDur, hg.2]
          · rw [if_neg hid, hts id]
            have : cid ≠ id := by
              rw [hg.2]
              exact fun hh => hid hh.symm
            simp [closedDur, this]
        · -- the open session belongs to a different item: nothing closes
          have hne : cid ≠ e.id := by
            intro hh
            exact hg ⟨Nat.pos_iff_ne_zero.mp ht0, hh⟩
          have hcode : viewableElementStep now st e = setPlaying st e.id false := by
            unfold viewableElementStep
            rw [hv2, hst, hcid]
            simp [hg]
          have hghost : codeSessionStep now g e = g := by
            unfold codeSessionStep
            rw [hv2, hopen]
            simp [hne]
          rw [hcode, hghost]
          exact ⟨by rw [sessionOf_setPlaying, hsome, hopen], hpos,
            fun id => by rw [setPlaying_ctx]; exact hts id⟩

theorem sessInv_batch (now : Nat) (es : List ViewElem) (st : FeedSt) (g : SessionLog)
    (hnow : 0 < now) (h : SessInv st g) :
    SessInv (onViewableItemsChanged now st es) (codeSessionBatch now g es) := by
  induction es generalizing st g with
  | nil => exact h
  | cons e rest ih =>
    exact ih (viewableElementStep now st e) (codeSessionStep now g e)
      (sessInv_step now st g e hnow h)

theorem sessInv_trace (tr : List (Nat × List ViewElem)) (st : FeedSt) (g : SessionLog)
    (htr : ∀ b ∈ tr, 0 < b.1) (h : SessInv st g) :
    SessInv (runTrace tr st) (codeSessionTrace tr g) := by
  induction tr generalizing st g with
  | nil => exact h
  | cons b rest ih =>
    exact ih (onViewableItemsChanged b.1 st b.2) (codeSessionBatch b.1 g b.2)
      (fun x hx => htr x (List.mem_cons_of_mem b hx))
      (sessInv_batch b.1 b.2 st g (htr b (List.mem_cons_self b rest)) h)

/-- C1 counterexample: item A becomes viewable at t=10, and one batch at
t=20 reports B viewable before A non-viewable (the rendering surface fixes
no order).  The callback overwrites `lastViewedRef` with B before
processing A's non-viewable report, whose `contentId === videoId` guard
then fails, so A is credited nothing — while the spec's session
discipline closes A's session when B becomes viewable and credits its
10 ms.  The code's timeSpent therefore does not equal the sum of durations
of all closed viewing sessions as the claim states. -/
theorem timeSpent_loses_displaced_session :
    (runTrace [(10, [⟨"A", 0, true⟩]), (20, [⟨"B", 1, true⟩, ⟨"A", 0, false⟩])]
        (initFeed (fun _ => true))).ctx.timeSpent "A" = 0 ∧
    closedDur "A" (specSessionTrace
        [(10, [⟨"A", 0, true⟩]), (20, [⟨"B", 1, true⟩, ⟨"A", 0, false⟩])]
        initLog).closed = 10 ∧
    (runTrace [(10, [⟨"A", 0, true⟩]), (20, [⟨"B", 1, true⟩, ⟨"A", 0, false⟩])]
        (initFeed (fun _ => true))).ctx.timeSpent "A" ≠
      closedDur "A" (specSessionTrace
        [(10, [⟨"A", 0, true⟩]), (20, [⟨"B", 1, true⟩, ⟨"A", 0, false⟩])]
        initLog).closed := by
  exact ⟨by decide, by decide, by decide⟩

/-- C1 amended: for every sequence of viewability-change batches (each
with a positive clock reading, as Date.now() always is) and for every
itemId, the accumulated `timeSpent[itemId]` of the Feed screen's
viewability callback equals the sum of the durations of the sessions the
callback actually closes: a session is credited exactly once, when a
non-viewable report of its item arrives while it is still the current
session; a session displaced by a later viewable report before that is
discarded without credit; an open session contributes nothing and no
duration is ever counted twice. -/
theorem timeSpent_matches_closed_sessions (m : String → Bool)
    (tr : List (Nat × List ViewElem)) (htr : ∀ b ∈ tr, 0 < b.1) (id : String) :
    (runTrace tr (initFeed m)).ctx.timeSpent id =
      closedDur id (codeSessionTrace tr initLog).closed := by
  have hinit : SessInv (initFeed m) initLog :=
    ⟨rfl, fun c t heq => Option.noConfusion heq, fun _ => rfl⟩
  exact (sessInv_trace tr (initFeed m) initLog htr hinit).2.2 id

/-- Witness for C1: a session on item A open from t=10 to t=25 is credited
15 ms, equal to the one closed session's duration. -/
theorem timeSpent_matches_closed_sessions_witness :
    (runTrace [(10, [⟨"A", 0, true⟩]), (25, [⟨"A", 0, false⟩])]
        (initFeed (fun _ => true))).ctx.timeSpent "A" = 15 ∧
    (runTrace [(10, [⟨"A", 0, true⟩]), (25, [⟨"A", 0, false⟩])]
        (initFeed (fun _ => true))).ctx.timeSpent "A" =
      closedDur "A" (codeSessionTrace [(10, [⟨"A", 0, true⟩]), (25, [⟨"A", 0, false⟩])]
        initLog).closed :=
  ⟨by decide,
   timeSpent_matches_closed_sessions (fun _ => true)
     [(10, [⟨"A", 0, true⟩]), (25, [⟨"A", 0, false⟩])] (by decide) "A"⟩

/-- C6: a Feed remount (the mount effect's `resetMetrics()` together with
the fresh instance's null `lastViewedRef`) zeroes every aggregate metric
and leaves no open session, and every duration credited afterwards comes
from a session opened after the reset: the post-reset `timeSpent` equals
the closed-session total of the post-reset trace alone, so no time that
started accruing before the reset is ever added. -/
theorem reset_discards_metrics_and_session (st : FeedSt)
    (tr : List (Nat × List ViewElem)) (htr : ∀ b ∈ tr, 0 < b.1) :
    (∀ id, (mountFeed st).ctx.timeSpent id = 0) ∧
    (mountFeed st).ctx.maxScrollDepth = 0 ∧
    (mountFeed st).ctx.videoCount = 0 ∧
    (mountFeed st).startTime = none ∧
    (mountFeed st).contentId = none ∧
    (∀ id, (runTrace tr (mountFeed st)).ctx.timeSpent id =
      closedDur id (codeSessionTrace tr initLog).closed) := by
  have hinit : SessInv (mountFeed st) initLog :=
    ⟨rfl, fun c t heq => Option.noConfusion heq, fun _ => rfl⟩
  exact ⟨fun _ => rfl, rfl, rfl, rfl, rfl,
    fun id => (sessInv_trace tr (mountFeed st) initLog htr hinit).2.2 id⟩

/-- Witness for C6: a state with an open session on A since t=5 and 99 ms
already recorded is reset; a batch at t=100 reporting A non-viewable then
credits nothing, because the open session was discarded by the reset. -/
theorem reset_discards_metrics_and_session_witness :
    (mountFeed ⟨⟨fun k => if k = "A" then 99 else 0, 3, 7, none, none⟩,
        some 5, some "A", fun _ => true, fun _ => false, AppSt.active, false⟩).ctx.timeSpent "A"
      = 0 ∧
    (runTrace [(100, [⟨"A", 0, false⟩])]
        (mountFeed ⟨⟨fun k => if k = "A" then 99 else 0, 3, 7, none, none⟩,
          some 5, some "A", fun _ => true, fun _ => false, AppSt.active, false⟩)).ctx.timeSpent "A"
      = closedDur "A" (codeSessionTrace [(100, [⟨"A", 0, false⟩])] initLog).closed ∧
    (runTrace [(100, [⟨"A", 0, false⟩])]
        (mountFeed ⟨⟨fun k => if k = "A" then 99 else 0, 3, 7, none, none⟩,
          some 5, some "A", fun _ => true, fun _ => false, AppSt.active, false⟩)).ctx.timeSpent "A"
      = 0 :=
  ⟨(reset_discards_metrics_and_session
      ⟨⟨fun k => if k = "A" then 99 else 0, 3, 7, none, none⟩,
        some 5, some "A", fun _ => true, fun _ => false, AppSt.active, false⟩
      [(100, [⟨"A", 0, false⟩])] (by decide)).1 "A",
   (reset_discards_metrics_and_session
      ⟨⟨fun k => if k = "A" then 99 else 0, 3, 7, none, none⟩,
        some 5, some "A", fun _ => true, fun _ => false, AppSt.active, false⟩
      [(100, [⟨"A", 0, false⟩])] (by decide)).2.2.2.2.2 "A",
   by decide⟩

theorem step_mounted (now : Nat) (st : FeedSt) (e : ViewElem) :
    (viewableElementStep now st e).mounted = st.mounted := by
  unfold viewableElementStep
  by_cases hv : e.isViewable = true
  · rw [hv]
    simp [setPlaying_mounted]
  · have hv2 : e.isViewable = false := by
      cases hval : e.isViewable
      · rfl
      · exact absurd hval hv
    rw [hv2]
    simp only [Bool.false_eq_true, if_false]
    rcases st.startTime with _ | t0 <;> rcases st.contentId with _ | cid <;>
      simp [setPlaying_mounted]
    split <;> simp [setPlaying_mounted]

theorem step_playing (now : Nat) (st : FeedSt) (e : ViewElem) (i : String) :
    (viewableElementStep now st e).playing i =
      if i = e.id ∧ st.mounted e.id = true then e.isViewable else st.playing i := by
  unfold viewableElementStep
  by_cases hv : e.isViewable = true
  · rw [hv]
    simp only [if_true]
    show (setPlaying st e.id true).playing i = _
    rw [setPlaying_playing]
  · have hv2 : e.isViewable = false := by
      cases hval : e.isViewable
      · rfl
      · exact absurd hval hv
    rw [hv2]
    simp only [Bool.false_eq_true, if_false]
    rcases st.startTime with _ | t0
    · show (setPlaying st e.id false).playing i = _
      rw [setPlaying_playing]
    · rcases st.contentId with _ | cid
      · show (setPlaying st e.id false).playing i = _
        rw [setPlaying_playing]
      · show (if t0 ≠ 0 ∧ cid = e.id then _ else setPlaying st e.id false).playing i = _
        split
        · show (setPlaying st e.id false).playing i = _
          rw [setPlaying_playing]
        · show (setPlaying st e.id false).playing i = _
          rw [setPlaying_playing]

theorem getLastD_cons_shift {α : Type} (a : α) (l : List α) (d : α) :
    (a :: l).getLastD d = l.getLastD a := by
  cases l <;> rfl

/-- After a batch is processed, a mounted item's play flag equals the
viewability of its last report in the batch (and is unchanged when the
batch does not mention it). -/
theorem batch_playing_eq_last_report (now : Nat) (batch : List ViewElem)
    (st : FeedSt) (i : String) (hm : st.mounted i = true) :
    (onViewableItemsChanged now st batch).playing i =
      ((batch.filter (fun e => e.id = i)).map (fun e => e.isViewable)).getLastD
        (st.playing i) := by
  induction batch generalizing st with
  | nil => rfl
  | cons e rest ih =>
    show (onViewableItemsChanged now (viewableElementStep now st e) rest).playing i = _
    have hm2 : (viewableElementStep now st e).mounted i = true := by
      rw [step_mounted]; exact hm
    rw [ih (viewableElementStep now st e) hm2]
    by_cases hei : e.id = i
    · have hfil : (e :: rest).filter (fun e => e.id = i) =
          e :: rest.filter (fun e => e.id = i) := by
        simp [List.filter, hei]
      rw [hfil, List.map_cons, getLastD_cons_shift]
      have hp : (viewableElementStep now st e).playing i = e.isViewable := by
        rw [step_playing]
        rw [if_pos ⟨hei.symm, by rw [hei]; exact hm⟩]
      rw [hp]
    · have hfil : (e :: rest).filter (fun e => e.id = i) =
          rest.filter (fun e => e.id = i) := by
        simp [List.filter, hei]
      rw [hfil]
      have hp : (viewableElementStep now st e).playing i = st.playing i := by
        rw [step_playing]
        rw [if_neg (fun hc => hei (hc.1.symm))]
      rw [hp]

/-- C2 counterexample: a single batch reporting both A and B viewable (both
handles registered, nothing playing beforehand) leaves BOTH items playing
after processing — the callback issues play() to every viewable element and
never pauses the earlier ones, so more than one item is left actively
playing, contradicting the claim that at most one survives a batch. -/
theorem batch_double_play_counterexample :
    (onViewableItemsChanged 10
        ⟨initCtx, none, none, fun k => k = "A" || k = "B", fun _ => false,
          AppSt.active, false⟩
        [⟨"A", 0, true⟩, ⟨"B", 1, true⟩]).playing "A" = true ∧
    (onViewableItemsChanged 10
        ⟨initCtx, none, none, fun k => k = "A" || k = "B", fun _ => false,
          AppSt.active, false⟩
        [⟨"A", 0, true⟩, ⟨"B", 1, true⟩]).playing "B" = true := by
  exact ⟨by decide, by decide⟩

/-- C2 amended: after processing a single viewability batch, a registered
item's play state equals the viewability of its last report in the batch
(unchanged if the batch does not mention it); in particular, when several
items are reported viewable in one batch, every one of them receives
play() and all are left playing — no tie-break pause is issued. -/
theorem batch_last_report_decides_playing (now : Nat) (batch : List ViewElem)
    (st : FeedSt) (i : String) (hm : st.mounted i = true) :
    (onViewableItemsChanged now st batch).playing i =
      ((batch.filter (fun e => e.id = i)).map (fun e => e.isViewable)).getLastD
        (st.playing i) :=
  batch_playing_eq_last_report now batch st i hm

/-- Witness for the amended C2: in the two-viewable-items batch, item A's
final play state is the viewability of its last (only) report, true. -/
theorem batch_last_report_decides_playing_witness :
    (onViewableItemsChanged 10
        ⟨initCtx, none, none, fun k => k = "A" || k = "B", fun _ => false,
          AppSt.active, false⟩
        [⟨"A", 0, true⟩, ⟨"B", 1, true⟩]).playing "A" =
      ((([⟨"A", 0, true⟩, ⟨"B", 1, true⟩] : List ViewElem).filter
          (fun e => e.id = "A")).map (fun e => e.isViewable)).getLastD false :=
  batch_last_report_decides_playing 10 [⟨"A", 0, true⟩, ⟨"B", 1, true⟩]
    ⟨initCtx, none, none, fun k => k = "A" || k = "B", fun _ => false,
      AppSt.active, false⟩ "A" (by decide)

theorem handleApp_inactive (st : FeedSt) (c : String)
    (hcid : st.contentId = some c) (hc : c ≠ "") (hm : st.mounted c = true) :
    handleAppStateChange AppSt.inactive st =
      ({ st with showSurvey := true, playing := upd st.playing c false,
                 appStateRef := AppSt.inactive }, [Cmd.pause c]) := by
  simp [handleAppStateChange, hcid, hc, hm]

theorem handleApp_background (st : FeedSt) (c : String)
    (hcid : st.contentId = some c) (hc : c ≠ "") (hm : st.mounted c = true) :
    handleAppStateChange AppSt.background st =
      ({ st with showSurvey := true, playing := upd st.playing c false,
                 appStateRef := AppSt.background }, [Cmd.pause c]) := by
  simp [handleAppStateChange, hcid, hc, hm]

theorem handleApp_active_fresh (st : FeedSt) (c : String)
    (hcid : st.contentId = some c) (hc : c ≠ "") (hm : st.mounted c = true)
    (hprev : st.appStateRef ≠ AppSt.active) :
    handleAppStateChange AppSt.active st =
      ({ st with playing := upd st.playing c true,
                 appStateRef := AppSt.active }, [Cmd.play c]) := by
  simp [handleAppStateChange, hcid, hc, hm, hprev]

theorem handleApp_active_stale (st : FeedSt)
    (hprev : st.appStateRef = AppSt.active) :
    handleAppStateChange AppSt.active st =
      ({ st with appStateRef := AppSt.active }, []) := by
  simp [handleAppStateChange, hprev]

theorem runApp_cons (e : AppSt) (es : List AppSt) (st : FeedSt) :
    runApp (e :: es) st =
      ((runApp es (handleAppStateChange e st).1).1,
        (handleAppStateChange e st).2 ++ (runApp es (handleAppStateChange e st).1).2) :=
  rfl

theorem countPlay_append (c : String) (l1 l2 : List Cmd) :
    countPlay c (l1 ++ l2) = countPlay c l1 + countPlay c l2 := by
  induction l1 with
  | nil => simp [countPlay]
  | cons x rest ih => cases x <;> simp [countPlay, ih] <;> omega

theorem countPause_append (c : String) (l1 l2 : List Cmd) :
    countPause c (l1 ++ l2) = countPause c l1 + countPause c l2 := by
  induction l1 with
  | nil => simp [countPause]
  | cons x rest ih => cases x <;> simp [countPause, ih] <;> omega

/-- C5: for any sequence of app-state events, while a session on item `c`
is current and its handle registered, the handler issues play() to `c`
exactly once per transition into `active` from a not-already-`active`
observed state, issues pause() to `c` exactly once per `inactive` or
`background` event, and the survey flag is raised exactly when some
backgrounding event occurred (or it was already raised). -/
theorem appstate_play_pause_discipline (evs : List AppSt) (st : FeedSt) (c : String)
    (hcid : st.contentId = some c) (hc : c ≠ "") (hm : st.mounted c = true) :
    countPlay c (runApp evs st).2 = resumePoints st.appStateRef evs ∧
    countPause c (runApp evs st).2 = pausePoints evs ∧
    (runApp evs st).1.showSurvey = (st.showSurvey || evs.any isBackgrounding) := by
  induction evs generalizing st with
  | nil => simp [runApp, countPlay, countPause, resumePoints, pausePoints]
  | cons e rest ih =>
    rw [runApp_cons]
    cases e with
    | inactive =>
      rw [handleApp_inactive st c hcid hc hm]
      obtain ⟨ih1, ih2, ih3⟩ :=
        ih { st with showSurvey := true, playing := upd st.playing c false,
                     appStateRef := AppSt.inactive } hcid hm
      refine ⟨?_, ?_, ?_⟩
      · rw [countPlay_append, ih1]
        simp [countPlay, resumePoints]
      · rw [countPause_append, ih2]
        simp [countPause, pausePoints]
      · rw [ih3]
        simp [isBackgrounding]
    | background =>
      rw [handleApp_background st c hcid hc hm]
      obtain ⟨ih1, ih2, ih3⟩ :=
        ih { st with showSurvey := true, playing := upd st.playing c false,
                     appStateRef := AppSt.background } hcid hm
      refine ⟨?_, ?_, ?_⟩
      · rw [countPlay_append, ih1]
        simp [countPlay, resumePoints]
      · rw [countPause_append, ih2]
        simp [countPause, pausePoints]
      · rw [ih3]
        simp [isBackgrounding]
    | active =>
      by_cases hprev : st.appStateRef = AppSt.active
      · rw [handleApp_active_stale st hprev]
        obtain ⟨ih1, ih2, ih3⟩ :=
          ih { st with appStateRef := AppSt.active } hcid hm
        refine ⟨?_, ?_, ?_⟩
        · rw [countPlay_append, ih1]
          simp [countPlay, resumePoints, hprev]
        · rw [countPause_append, ih2]
          simp [countPause, pausePoints]
        · rw [ih3]
          simp [isBackgrounding]
      · rw [handleApp_active_fresh st c hcid hc hm hprev]
        obtain ⟨ih1, ih2, ih3⟩ :=
          ih { st with playing := upd st.playing c true,
                       appStateRef := AppSt.active } hcid hm
        refine ⟨?_, ?_, ?_⟩
        · rw [countPlay_append, ih1]
          simp [countPlay, resumePoints, hprev]
        · rw [countPause_append, ih2]
          simp [countPause, pausePoints]
        · rw [ih3]
          simp [isBackgrounding]

/-- Witness for C5: with item Y current and registered, the cycle
background-then-active issues exactly one pause and exactly one play to Y
(even with a duplicate trailing `active` event), and the survey fires. -/
theorem appstate_play_pause_discipline_witness :
    countPlay "Y" (runApp [AppSt.background, AppSt.active, AppSt.active]
        ⟨initCtx, some 0, some "Y", fun k => k = "Y", fun _ => false,
          AppSt.active, false⟩).2 = 1 ∧
    countPause "Y" (runApp [AppSt.background, AppSt.active, AppSt.active]
        ⟨initCtx, some 0, some "Y", fun k => k = "Y", fun _ => false,
          AppSt.active, false⟩).2 = 1 ∧
    (runApp [AppSt.background, AppSt.active, AppSt.active]
        ⟨initCtx, some 0, some "Y", fun k => k = "Y", fun _ => false,
          AppSt.active, false⟩).1.showSurvey = true := by
  obtain ⟨h1, h2, h3⟩ := appstate_play_pause_discipline
    [AppSt.background, AppSt.active, AppSt.active]
    ⟨initCtx, some 0, some "Y", fun k => k = "Y", fun _ => false,
      AppSt.active, false⟩ "Y" rfl (by decide) (by decide)
  exact ⟨h1.trans (by decide), h2.trans (by decide), h3.trans (by decide)⟩

theorem runActivations_count (n : Nat) : (runActivations n).1 = n := by
  induction n with
  | zero => rfl
  | succ k ih => simp [runActivations, videoCountStep, ih]

theorem countFires_append (c : Nat) (l1 l2 : List Nat) :
    countFires c (l1 ++ l2) = countFires c l1 + countFires c l2 := by
  induction l1 with
  | nil => simp [countFires]
  | cons x rest ih =>
    simp [countFires, ih]
    omega

/-- C4: over any number of activations, the survey trigger of the feed's
counter fires exactly at the counts that are positive multiples of 5, and
exactly once at each such count: after `n` activations the fired-count log
contains each count `c` once when `0 < c ≤ n` and `5 ∣ c`, and never
otherwise.  In particular activations 1..10 fire at counts 5 and 10 only. -/
theorem survey_trigger_every_fifth_activation (n c : Nat) :
    countFires c (runActivations n).2 =
      if 0 < c ∧ c ≤ n ∧ c % 5 = 0 then 1 else 0 := by
  induction n with
  | zero =>
    simp [runActivations, countFires]
    split_ifs <;> omega
  | succ k ih =>
    have hfst : (runActivations k).1 = k := runActivations_count k
    show countFires c ((runActivations k).2 ++
      (if ((runActivations k).1 + 1) % 5 == 0 then [(runActivations k).1 + 1] else [])) = _
    rw [countFires_append, ih, hfst]
    have htail : countFires c (if (k + 1) % 5 == 0 then [k + 1] else []) =
        if c = k + 1 ∧ (k + 1) % 5 = 0 then 1 else 0 := by
      by_cases h5 : (k + 1) % 5 = 0
      · by_cases hc : c = k + 1
        · subst hc
          simp [countFires, h5]
        · have hne : k + 1 ≠ c := fun hh => hc hh.symm
          simp [countFires, h5, hc, hne]
      · simp [countFires, h5]
    rw [htail]
    split_ifs <;> omega

/-- C3 counterexample: the item dC3 with the three tiers A (streaming
uri), B (fallback) and C (original) all failing attempts exactly A then B
and then reports exhaustion — tier C is never attempted, because
`hasError` is set by the first fallback switch and both advance branches
require it to be unset.  The attempt sequence is not A,B,C as claimed. -/
theorem tier_sequence_counterexample :
    attemptList dC3 = ["A", "B"] ∧ attemptList dC3 ≠ ["A", "B", "C"] := by
  exact ⟨by decide, by decide⟩

/-- C3 amended: for every streaming item with a non-empty fallback URL
whose loads all fail, the attempted sources are exactly the streaming uri
followed by the fallback — one advance only; the original URI is never
attempted, the state after the second error is the terminal exhausted one
(no further load starts, `hasError` stays set), and when the two tiers
differ no source is attempted twice. -/
theorem tier_attempts_streaming_fallback (d : PostR) (fb : String)
    (hstream : d.isStreaming = true) (hfb : d.fallbackUrl = some fb)
    (hne : fb ≠ "") :
    attemptList d = [d.uri, fb] ∧
    (handleVideoError d (handleVideoError d (initSState d))).isLoading = false ∧
    (handleVideoError d (handleVideoError d (initSState d))).hasError = true ∧
    (d.uri ≠ fb → (attemptList d).Nodup) := by
  have hb2 : optStrTruthy (some fb) = true := by
    simp [optStrTruthy, hne]
  have hstep1 : handleVideoError d (initSState d) = ⟨fb, true, true⟩ := by
    unfold handleVideoError initSState
    simp [hstream, hfb, hb2]
  have hstep2 : handleVideoError d ⟨fb, true, true⟩ = ⟨fb, true, false⟩ := by
    unfold handleVideoError
    simp
  have hlist : attemptList d = [d.uri, fb] := by
    unfold attemptList failAttempts
    rw [hstep1]
    simp only [if_pos rfl]
    unfold failAttempts
    rw [hstep2]
    simp
  refine ⟨hlist, ?_, ?_, ?_⟩
  · rw [hstep1, hstep2]
  · rw [hstep1, hstep2]
  · intro hud
    rw [hlist]
    simp [hud]

/-- Witness for the amended C3: the A/B/C item attempts exactly A then B
and ends exhausted. -/
theorem tier_attempts_streaming_fallback_witness :
    attemptList dC3 = [dC3.uri, "B"] ∧
    (handleVideoError dC3 (handleVideoError dC3 (initSState dC3))).isLoading = false := by
  obtain ⟨h1, h2, h3, h4⟩ :=
    tier_attempts_streaming_fallback dC3 "B" rfl rfl (by decide)
  exact ⟨h1, h2⟩

/-- C7: every handle method resolves without an exception in every state —
after unmount has begun (`videoRef.current` null) each call is a guarded
no-op leaving the handle untouched, any rejection of the underlying player
call is caught and swallowed, and play() on an already-playing handle is a
no-op success. -/
theorem handle_calls_never_throw (rej : Bool) (h : HandleSt) :
    (playHandle rej h).2 = Except.ok () ∧
    (pauseHandle rej h).2 = Except.ok () ∧
    (unloadHandle rej h).2 = Except.ok () ∧
    (h.ref = none →
      (playHandle rej h).1 = h ∧ (pauseHandle rej h).1 = h ∧
      (unloadHandle rej h).1 = h) ∧
    (∀ p, h.ref = some p → p.shouldPlay = true → (playHandle rej h).1 = h) := by
  obtain ⟨r, il⟩ := h
  refine ⟨?_, ?_, ?_, ?_, ?_⟩
  · cases r with
    | none => rfl
    | some p => cases rej <;> rfl
  · cases r with
    | none => rfl
    | some p => cases rej <;> rfl
  · cases r with
    | none => rfl
    | some p => cases rej <;> rfl
  · intro hr
    cases hr
    exact ⟨rfl, rfl, rfl⟩
  · intro p hr hsp
    cases hr
    cases rej with
    | true => rfl
    | false =>
      show ((⟨some { p with shouldPlay := true }, il⟩ : HandleSt), Except.ok ()).1 = _
      obtain ⟨ld, sp⟩ := p
      cases hsp
      rfl

/-- Witness for C7: a handle whose item is unmounting (null ref) resolves
all three calls unchanged; a live, already-playing handle is unchanged by
play(); a live handle with a rejecting player still resolves play(). -/
theorem handle_calls_never_throw_witness :
    (playHandle false ⟨none, true⟩).2 = Except.ok () ∧
    (playHandle false ⟨none, true⟩).1 = ⟨none, true⟩ ∧
    (playHandle false ⟨some ⟨true, true⟩, false⟩).1 = ⟨some ⟨true, true⟩, false⟩ ∧
    (playHandle true ⟨some ⟨true, false⟩, false⟩).2 = Except.ok () := by
  refine ⟨(handle_calls_never_throw false ⟨none, true⟩).1,
    ((handle_calls_never_throw false ⟨none, true⟩).2.2.2.1 rfl).1,
    (handle_calls_never_throw false ⟨some ⟨true, true⟩, false⟩).2.2.2.2
      ⟨true, true⟩ rfl rfl,
    (handle_calls_never_throw true ⟨some ⟨true, false⟩, false⟩).1⟩

theorem applyCtxOps_scroll_mono (ops : List CtxOp) (c : Ctx)
    (hops : ∀ op ∈ ops, op ≠ CtxOp.reset) :
    c.maxScrollDepth ≤ (applyCtxOps ops c).maxScrollDepth := by
  induction ops generalizing c with
  | nil => exact le_refl _
  | cons op rest ih =>
    have hstep : c.maxScrollDepth ≤ (applyCtxOp c op).maxScrollDepth := by
      cases op with
      | time v d => exact le_refl _
      | scroll d => exact le_max_left _ _
      | incr => exact le_refl _
      | reset => exact absurd rfl (hops CtxOp.reset (List.mem_cons_self _ _))
    exact le_trans hstep (ih (applyCtxOp c op)
      (fun o ho => hops o (List.mem_cons_of_mem op ho)))

/-- C8: the provider's `maxScrollDepth` is monotonically non-decreasing
under every sequence of provider calls that does not include reset:
a scroll update sets it to the maximum of the previous value and the
reported depth, and no other non-reset call changes it. -/
theorem maxScrollDepth_monotone (ops : List CtxOp) (c : Ctx)
    (hops : ∀ op ∈ ops, op ≠ CtxOp.reset) :
    c.maxScrollDepth ≤ (applyCtxOps ops c).maxScrollDepth ∧
    (∀ d, (applyCtxOp c (CtxOp.scroll d)).maxScrollDepth = max c.maxScrollDepth d) ∧
    (∀ v d, (applyCtxOp c (CtxOp.time v d)).maxScrollDepth = c.maxScrollDepth) ∧
    (applyCtxOp c CtxOp.incr).maxScrollDepth = c.maxScrollDepth :=
  ⟨applyCtxOps_scroll_mono ops c hops, fun _ => rfl, fun _ _ => rfl, rfl⟩

/-- Witness for C8: a concrete call sequence without reset never lowers
the depth, and a single scroll update computes the max. -/
theorem maxScrollDepth_monotone_witness :
    initCtx.maxScrollDepth ≤
      (applyCtxOps [CtxOp.scroll 3, CtxOp.incr, CtxOp.scroll 2,
        CtxOp.time "A" 7] initCtx).maxScrollDepth ∧
    (applyCtxOps [CtxOp.scroll 3, CtxOp.incr, CtxOp.scroll 2,
        CtxOp.time "A" 7] initCtx).maxScrollDepth = 3 := by
  refine ⟨(maxScrollDepth_monotone [CtxOp.scroll 3, CtxOp.incr, CtxOp.scroll 2,
    CtxOp.time "A" 7] initCtx (by decide)).1, by decide⟩

/-- C9: whatever the catalog fetch outcome and probe results, the video
list left in the provider is never empty; on a network error or an empty
response it is exactly the bundled static catalog VIDEOS. -/
theorem fetch_fallback_nonempty (ok : String → Bool)
    (outcome : Except Unit (List PostR)) :
    0 < (fetchVideosResult ok outcome).length ∧
    (∀ e, outcome = Except.error e → fetchVideosResult ok outcome = VIDEOS) ∧
    (outcome = Except.ok [] → fetchVideosResult ok outcome = VIDEOS) := by
  cases outcome with
  | error e =>
    refine ⟨?_, ?_, ?_⟩
    · show 0 < VIDEOS.length
      decide
    · intro _ _
      rfl
    · intro hh
      cases hh
  | ok l =>
    cases l with
    | nil =>
      refine ⟨?_, ?_, ?_⟩
      · show 0 < VIDEOS.length
        decide
      · intro e hh
        cases hh
      · intro _
        rfl
    | cons v rest =>
      refine ⟨?_, ?_, ?_⟩
      · show 0 < (if (v :: rest).length > 0
          then (v :: rest).map (processFetchedVideo ok) else VIDEOS).length
        rw [if_pos (by simp)]
        simp
      · intro e hh
        cases hh
      · intro hh
        cases hh

/-- Witness for C9: a failed fetch yields the 7-item bundled catalog. -/
theorem fetch_fallback_nonempty_witness :
    fetchVideosResult (fun _ => false) (Except.error ()) = VIDEOS ∧
    0 < (fetchVideosResult (fun _ => false) (Except.error ())).length :=
  ⟨(fetch_fallback_nonempty (fun _ => false) (Except.error ())).2.1 () rfl,
   (fetch_fallback_nonempty (fun _ => false) (Except.error ())).1⟩

theorem storeGet_append_lt (st : Store) (x : Obj) (r : Nat) (h : r < st.length) :
    storeGet (st ++ [x]) r = storeGet st r := by
  unfold storeGet
  exact List.get?_append h

/-- C10: processVideoUrls never mutates its input object: called on null
or undefined it returns the input with the heap unchanged, and called on a
reference to a post object it allocates and returns a fresh object while
the input object's every field is untouched in the resulting heap. -/
theorem processVideoUrls_no_mutation (st : Store) (r : Nat) (h : r < st.length) :
    storeGet (processVideoUrls st (some r)).1 r = storeGet st r ∧
    (processVideoUrls st (some r)).2 = some st.length ∧
    r ≠ st.length ∧
    processVideoUrls st none = (st, none) := by
  obtain ⟨obj, hobj⟩ : ∃ o, storeGet st r = some o := by
    unfold storeGet
    exact List.get?_eq_get h ▸ ⟨_, rfl⟩
  have hrun : processVideoUrls st (some r) =
      (st ++ [processObjFields obj], some st.length) := by
    simp only [processVideoUrls]
    rw [hobj]
  refine ⟨?_, ?_, ?_, rfl⟩
  · rw [hrun]
    exact storeGet_append_lt st (processObjFields obj) r h
  · rw [hrun]
  · omega

/-- Witness for C10: a concrete streaming post object is left untouched in
the heap and the processed copy is a fresh reference. -/
theorem processVideoUrls_no_mutation_witness :
    storeGet (processVideoUrls
        [[("id", Val.num 3), ("uri", Val.str "/api/stream/video/3"),
          ("fallback_url", Val.str "https://cdn.example/v3.mp4")]] (some 0)).1 0 =
      some [("id", Val.num 3), ("uri", Val.str "/api/stream/video/3"),
          ("fallback_url", Val.str "https://cdn.example/v3.mp4")] ∧
    (processVideoUrls
        [[("id", Val.num 3), ("uri", Val.str "/api/stream/video/3"),
          ("fallback_url", Val.str "https://cdn.example/v3.mp4")]] (some 0)).2 =
      some 1 := by
  obtain ⟨h1, h2, h3, h4⟩ := processVideoUrls_no_mutation
    [[("id", Val.num 3), ("uri", Val.str "/api/stream/video/3"),
      ("fallback_url", Val.str "https://cdn.example/v3.mp4")]] 0 (by decide)
  exact ⟨h1.trans (by decide), h2⟩
